import Mathlib

/-!
Verification development for `rust_optimizer` (src/rust_optimizer/src/main.rs).

The program scans a cache directory, processes every regular file in parallel
(stat, mmap, blake3 fingerprint, optional GPU XOR checksum), sends one
`FileReport` per file through a bounded channel to a single aggregator thread,
and prints a summary (counts, byte totals, top-10 largest files).

Shallow embedding conventions:
* paths are `String`s; file contents are `List Nat` (bytes);
* the file system is a snapshot `FS` giving each path an optional stat result
  (`metadata()` / size) and an optional mapped content (`File::open` + mmap,
  `none` on failure of either);
* the blake3 hash is an abstract parameter `hash : List Nat → String`
  (the blake3 crate is external; only presence/absence of the digest matters);
* the OpenCL device is a `GpuContext` whose failure modes (buffer/kernel
  build, enqueue, read-back) are abstracted into a `deviceFails` predicate,
  while the data path (word view, strided lane reduction, host XOR fold)
  is modelled faithfully;
* `u64` counters are `Nat` reduced `% 2 ^ 64` where the code uses wrapping
  `AtomicU64::fetch_add`;
* wall-clock durations are abstracted to `0`.
-/

namespace RustOptimizer

/-- `2 ^ 64`, the modulus of Rust `u64` arithmetic. -/
def U64MOD : Nat := 2 ^ 64

/-! ## GPU XOR reduction (`mod gpu`, `xor64_for_file`, `KERNEL_SRC`) -/

/-- Host-side XOR fold (`let mut acc = 0u64; for v in partials { acc ^= v; }`). -/
def xorList (l : List Nat) : Nat := l.foldl (fun acc v => acc ^^^ v) 0

/-- `u64::from_le_bytes` on an up-to-8-byte chunk, zero padding the missing
high bytes (the `chunk = [0u8; 8]` buffer in `xor64_for_file`). -/
def bytesToWordLE (chunk : List Nat) : Nat :=
  chunk.foldr (fun b acc => b + 256 * acc) 0

/-- The `u64buf` word view built in `xor64_for_file`: the byte stream cut into
8-byte little-endian words, the final partial word zero padded. -/
def toWords (bytes : List Nat) : List Nat :=
  if hne : bytes = [] then []
  else bytesToWordLE (bytes.take 8) :: toWords (bytes.drop 8)
termination_by bytes.length
decreasing_by
  simp only [List.length_drop]
  have hpos : 0 < bytes.length := List.length_pos.mpr hne
  omega

/-- One work item of the `xor_reduce` kernel: lane `g` runs
`for (uint i = gid; i < n; i += get_global_size(0)) acc ^= data[i];`,
XOR-ing every `wg`-th word starting `g` words in.  The counter counts down
to the next word this lane picks up. -/
def strideXor (wg : Nat) : List Nat → Nat → Nat
  | [], _ => 0
  | w :: ws, 0 => w ^^^ strideXor wg ws (wg - 1)
  | _ :: ws, g + 1 => strideXor wg ws g

/-- The whole kernel dispatch plus host reduction: each of the `wg` lanes
writes its partial accumulator into `out`, and the host XOR-folds `out`. -/
def xorLanes (words : List Nat) (wg : Nat) : Nat :=
  xorList ((List.range wg).map (strideXor wg words))

/-- The OpenCL context (`gpu::GpuContext`).  `max_work_items` is the clamped
device capacity; `deviceFails` abstracts every failure mode of a concrete
invocation (buffer build, kernel build, enqueue, read-back). -/
structure GpuContext where
  max_work_items : Nat
  deviceFails : List Nat → Bool

/-- `gpu::GpuContext::xor64_for_file`: build the zero-padded word view,
dispatch `xor_reduce` over `wg = min(max_work_items, n)` lanes, read the
partial accumulators back and XOR-fold them on the host. -/
def GpuContext.xor64_for_file (ctx : GpuContext) (bytes : List Nat) :
    Except String Nat :=
  if ctx.deviceFails bytes then Except.error "gpu invocation failed"
  else
    let u64buf := toWords bytes
    let n := u64buf.length
    let wg := min ctx.max_work_items n
    Except.ok (xorLanes u64buf wg)

/-! ### XOR fold algebra -/

theorem foldl_xor_shift (l : List Nat) :
    ∀ x y, l.foldl (fun acc v => acc ^^^ v) (x ^^^ y) =
      x ^^^ l.foldl (fun acc v => acc ^^^ v) y := by
  induction l with
  | nil => intro x y; rfl
  | cons c t ih =>
      intro x y
      simp only [List.foldl_cons]
      rw [Nat.xor_assoc]
      exact ih x (y ^^^ c)

theorem xorList_nil : xorList [] = 0 := rfl

theorem xorList_cons (a : Nat) (l : List Nat) :
    xorList (a :: l) = a ^^^ xorList l := by
  unfold xorList
  simp only [List.foldl_cons, Nat.zero_xor]
  calc l.foldl (fun acc v => acc ^^^ v) a
      = l.foldl (fun acc v => acc ^^^ v) (a ^^^ 0) := by rw [Nat.xor_zero]
    _ = a ^^^ l.foldl (fun acc v => acc ^^^ v) 0 := foldl_xor_shift l a 0

theorem xorList_append (l₁ l₂ : List Nat) :
    xorList (l₁ ++ l₂) = xorList l₁ ^^^ xorList l₂ := by
  induction l₁ with
  | nil => simp [xorList_nil, Nat.zero_xor]
  | cons a t ih =>
      simp only [List.cons_append, xorList_cons, ih, Nat.xor_assoc]

theorem xorList_singleton (a : Nat) : xorList [a] = a := by
  rw [xorList_cons, xorList_nil, Nat.xor_zero]

/-- Lanes of the empty word list contribute nothing. -/
theorem strideXor_nil (wg g : Nat) : strideXor wg [] g = 0 := rfl

/-- Core identity: for any positive lane count `m + 1`, the XOR of the lane
accumulators equals the plain XOR of all words. -/
theorem xorLanes_eq_xorList (words : List Nat) :
    ∀ m : Nat, xorLanes words (m + 1) = xorList words := by
  induction words with
  | nil =>
      intro m
      unfold xorLanes
      have hz : ∀ l : List Nat, (∀ x ∈ l, x = 0) → xorList l = 0 := by
        intro l
        induction l with
        | nil => intro _; rfl
        | cons a t iht =>
            intro hmem
            rw [xorList_cons, hmem a (List.mem_cons_self a t),
              iht (fun x hx => hmem x (List.mem_cons_of_mem a hx)), Nat.xor_zero]
      apply hz
      intro x hx
      rcases List.mem_map.mp hx with ⟨g, _, hg⟩
      simpa [strideXor_nil] using hg.symm
  | cons w ws ih =>
      intro m
      unfold xorLanes
      rw [List.range_succ_eq_map, List.map_cons, List.map_map, xorList_cons]
      have hlane0 : strideXor (m + 1) (w :: ws) 0 =
          w ^^^ strideXor (m + 1) ws m := by
        simp [strideXor]
      have hlaneS : ((List.range m).map (strideXor (m + 1) (w :: ws) ∘ Nat.succ)) =
          (List.range m).map (strideXor (m + 1) ws) := by
        apply List.map_congr_left
        intro g _
        rfl
      rw [hlane0, hlaneS]
      have hIH : xorList ((List.range (m + 1)).map (strideXor (m + 1) ws)) =
          xorList ws := ih m
      rw [List.range_succ, List.map_append, xorList_append, List.map_singleton,
        xorList_singleton] at hIH
      set A := xorList ((List.range m).map (strideXor (m + 1) ws)) with hA
      set S := strideXor (m + 1) ws m with hS
      rw [xorList_cons]
      calc (w ^^^ S) ^^^ A = w ^^^ (S ^^^ A) := by rw [Nat.xor_assoc]
        _ = w ^^^ (A ^^^ S) := by rw [Nat.xor_comm S A]
        _ = w ^^^ xorList ws := by rw [hIH]

/-- C4: the GPU checksum — XOR of per-lane accumulators over strided subsets
of the zero-padded little-endian word view — equals the plain XOR of all
words, for every positive global work size; hence any successful
`xor64_for_file` call returns that same value regardless of the device's
lane capacity. -/
theorem gpu_checksum_lane_invariant (bytes : List Nat) :
    (∀ wg, 0 < wg → xorLanes (toWords bytes) wg = xorList (toWords bytes)) ∧
    (∀ (ctx : GpuContext) (v : Nat), 0 < ctx.max_work_items →
      ctx.xor64_for_file bytes = Except.ok v →
      v = xorList (toWords bytes)) := by
  constructor
  · intro wg hwg
    obtain ⟨m, rfl⟩ := Nat.exists_eq_add_of_lt hwg
    simpa using xorLanes_eq_xorList (toWords bytes) m
  · intro ctx v hctx hok
    unfold GpuContext.xor64_for_file at hok
    by_cases hf : ctx.deviceFails bytes
    · simp [hf] at hok
    · simp only [hf, if_neg, Bool.false_eq_true, not_false_eq_true, if_false] at hok
      have hv : v = xorLanes (toWords bytes)
          (min ctx.max_work_items (toWords bytes).length) := by
        exact (Except.ok.injEq _ _ ▸ hok).symm
      cases hlen : (toWords bytes).length with
      | zero =>
          have hnil : toWords bytes = [] := List.length_eq_zero.mp hlen
          rw [hv, hlen, hnil]
          simp [xorLanes, xorList_nil]
      | succ k =>
          have hpos : 0 < min ctx.max_work_items (toWords bytes).length := by
            rw [hlen]
            exact Nat.lt_min.mpr ⟨hctx, Nat.succ_pos k⟩
          obtain ⟨m, hm⟩ := Nat.exists_eq_add_of_lt hpos
          rw [hv, hm]
          simpa using xorLanes_eq_xorList (toWords bytes) m

/-- Witness for C4 at a concrete 11-byte input and lane count 3. -/
theorem gpu_checksum_lane_invariant_witness :
    (0 : Nat) < 3 ∧
      xorLanes (toWords [1, 2, 3, 4, 5, 6, 7, 8, 9, 0, 255]) 3 =
        xorList (toWords [1, 2, 3, 4, 5, 6, 7, 8, 9, 0, 255]) :=
  ⟨by decide,
    (gpu_checksum_lane_invariant [1, 2, 3, 4, 5, 6, 7, 8, 9, 0, 255]).1 3
      (by decide)⟩

/-! ## Per-file processing (`FileReport`, `process_file`) -/

/-- `struct FileReport` (wall-clock `elapsed_ms` abstracted to `0`). -/
structure FileReport where
  path : String
  size : Nat
  blake3_hex : Option String
  xor64_gpu : Option Nat
  elapsed_ms : Nat
deriving DecidableEq

/-- Snapshot of the file system as the run observes it: `stat p` is
`p.metadata().map(|m| m.len())` (`none` on stat failure), `readMap p` is the
content seen through `File::open` + `MmapOptions::map` (`none` if either
fails). -/
structure FS where
  stat : String → Option Nat
  readMap : String → Option (List Nat)

/-- `process_file`: stat; below `min_bytes` return a lightweight report
without touching the file further; otherwise open + map, hash the mapped
bytes, optionally run the GPU checksum (its failure recorded as `none`). -/
def process_file (fs : FS) (hash : List Nat → String) (path : String)
    (min_bytes : Nat) (use_gpu : Bool) (gpu_ctx : Option GpuContext) :
    Except String FileReport :=
  match fs.stat path with
  | none => Except.error "stat failed"
  | some size =>
      if size < min_bytes then
        Except.ok { path := path, size := size, blake3_hex := none,
                    xor64_gpu := none, elapsed_ms := 0 }
      else
        match fs.readMap path with
        | none => Except.error "open or map failed"
        | some data =>
            let blake3_hex := some (hash data)
            let xor64_gpu :=
              if use_gpu then
                match gpu_ctx with
                | some ctx =>
                    match ctx.xor64_for_file data with
                    | Except.ok v => some v
                    | Except.error _ => none
                | none => none
              else none
            Except.ok { path := path, size := size, blake3_hex := blake3_hex,
                        xor64_gpu := xor64_gpu, elapsed_ms := 0 }

/-- The stderr line `eprintln!("[WARN] Error processing {:?}: {:?}", p, e)`. -/
def warnMsg (p e : String) : String :=
  "[WARN] Error processing " ++ p ++ ": " ++ e

/-- One iteration of the worker loop in `main`: run `process_file`; on error
send the minimal fallback report (re-statted best-effort size, `0` if the
stat fails, no fingerprint, no GPU value) and emit a stderr warning. -/
def runWorker (fs : FS) (hash : List Nat → String) (min_bytes : Nat)
    (use_gpu : Bool) (gpu_ctx : Option GpuContext) (p : String) :
    FileReport × Option String :=
  match process_file fs hash p min_bytes use_gpu gpu_ctx with
  | Except.ok report => (report, none)
  | Except.error e =>
      ({ path := p, size := (fs.stat p).getD 0, blake3_hex := none,
         xor64_gpu := none, elapsed_ms := 0 }, some (warnMsg p e))

/-- The multiset of reports the workers send into the channel, listed in
discovery order (the channel delivers them to the aggregator in some
permutation of this list). -/
def sentReports (fs : FS) (hash : List Nat → String) (min_bytes : Nat)
    (use_gpu : Bool) (gpu_ctx : Option GpuContext) (files : List String) :
    List FileReport :=
  files.map (fun p => (runWorker fs hash min_bytes use_gpu gpu_ctx p).1)

/-- The stderr warnings emitted by the workers. -/
def sentWarnings (fs : FS) (hash : List Nat → String) (min_bytes : Nat)
    (use_gpu : Bool) (gpu_ctx : Option GpuContext) (files : List String) :
    List String :=
  files.filterMap (fun p => (runWorker fs hash min_bytes use_gpu gpu_ctx p).2)

/-! ## Directory scan -/

/-- One item yielded by the `WalkDir` iterator: an `Ok` entry carrying its
path and whether it is a regular file, or an error entry (unreadable /
transient), which `filter_map(|e| e.ok())` silently drops. -/
inductive WalkEntry where
  | found (path : String) (isFile : Bool)
  | ioError
deriving DecidableEq

/-- The scan loop in `main`: keep the paths of the `Ok` regular-file entries,
then `files.sort()` for a deterministic order. -/
def scanFiles (entries : List WalkEntry) : List String :=
  (entries.filterMap (fun e =>
      match e with
      | WalkEntry.found p ft => if ft then some p else none
      | WalkEntry.ioError => none)).mergeSort (fun a b => decide (a ≤ b))

/-! ## CLI arguments and the whole run -/

/-- `struct Args` (clap-parsed CLI flags). -/
structure Args where
  cache : String
  jobs : Option Nat
  gpu : Bool
  warm_only : Bool
  min_bytes : Nat

/-- The observable outcome of one run: the reports sent to the aggregator
(in discovery order) and the stderr warnings.  `main` copies
`args.warm_only` into a local binding that no later step reads. -/
def runPipeline (args : Args) (fs : FS) (hash : List Nat → String)
    (entries : List WalkEntry) (gpu_ctx : Option GpuContext) :
    List FileReport × List String :=
  let files := scanFiles entries
  (sentReports fs hash args.min_bytes args.gpu gpu_ctx files,
   sentWarnings fs hash args.min_bytes args.gpu gpu_ctx files)

/-! ## Aggregator thread -/

/-- `largest.sort_by_key(|(s, _p)| Reverse(*s))`. -/
def sortPairsDesc (l : List (Nat × String)) : List (Nat × String) :=
  l.mergeSort (fun a b => decide (b.1 ≤ a.1))

/-- `reports.sort_by_key(|r| Reverse(r.size))` at finalization. -/
def sortReportsDesc (l : List FileReport) : List FileReport :=
  l.mergeSort (fun a b => decide (b.size ≤ a.size))

/-- The aggregator's state: both shared `AtomicU64` counters, the full
report collection, and the bounded top-256 candidate list. -/
structure AggState where
  total_processed : Nat
  total_bytes_processed : Nat
  reports : List FileReport
  largest : List (Nat × String)
deriving DecidableEq

def aggInit : AggState :=
  { total_processed := 0, total_bytes_processed := 0, reports := [], largest := [] }

/-- One iteration of `while let Ok(rep) = rx.recv()`: wrapping `fetch_add`
on both `u64` counters, push `(size, path)` onto `largest` (sorting
descending and truncating to 256 once past capacity), push the report. -/
def aggStep (s : AggState) (rep : FileReport) : AggState :=
  let largest1 := s.largest ++ [(rep.size, rep.path)]
  let largest2 :=
    if 256 < largest1.length then (sortPairsDesc largest1).take 256 else largest1
  { total_processed := (s.total_processed + 1) % U64MOD
    total_bytes_processed := (s.total_bytes_processed + rep.size % U64MOD) % U64MOD
    reports := s.reports ++ [rep]
    largest := largest2 }

/-- The aggregator run on the sequence of reports it receives. -/
def aggregate (received : List FileReport) : AggState :=
  received.foldl aggStep aggInit

/-- The top-10 list printed after channel closure (`reports.iter().take(10)`
after the descending sort). -/
def finalTop10 (s : AggState) : List FileReport :=
  (sortReportsDesc s.reports).take 10

/-! ## Concrete instances used by the witnesses -/

/-- Witness file system: every path stats as 5 bytes and maps to byte `1`. -/
def fs0 : FS := { stat := fun _ => some 5, readMap := fun _ => some [1] }

/-- Witness file system in which the path `"bad"` fails to stat. -/
def fsBad : FS :=
  { stat := fun p => if p == "bad" then none else some 5
    readMap := fun _ => some [1] }

/-- Witness hash function (only presence of the digest matters). -/
def hash0 : List Nat → String := fun _ => "h"

/-- Witness GPU context whose every invocation fails. -/
def ctxFail : GpuContext := { max_work_items := 64, deviceFails := fun _ => true }

/-! ## Helper lemmas about `process_file` and the workers -/

/-- `process_file` when the initial stat fails. -/
theorem process_file_stat_none (fs : FS) (hash : List Nat → String)
    (p : String) (min_bytes : Nat) (use_gpu : Bool)
    (gpu_ctx : Option GpuContext) (h : fs.stat p = none) :
    process_file fs hash p min_bytes use_gpu gpu_ctx =
      Except.error "stat failed" := by
  simp [process_file, h]

/-- `process_file` on a file strictly below the threshold. -/
theorem process_file_skip (fs : FS) (hash : List Nat → String) (p : String)
    (min_bytes size : Nat) (use_gpu : Bool) (gpu_ctx : Option GpuContext)
    (h : fs.stat p = some size) (hlt : size < min_bytes) :
    process_file fs hash p min_bytes use_gpu gpu_ctx =
      Except.ok { path := p, size := size, blake3_hex := none,
                  xor64_gpu := none, elapsed_ms := 0 } := by
  simp [process_file, h, hlt]

/-- `process_file` when opening or mapping fails. -/
theorem process_file_map_none (fs : FS) (hash : List Nat → String)
    (p : String) (min_bytes size : Nat) (use_gpu : Bool)
    (gpu_ctx : Option GpuContext) (h : fs.stat p = some size)
    (hge : min_bytes ≤ size) (hm : fs.readMap p = none) :
    process_file fs hash p min_bytes use_gpu gpu_ctx =
      Except.error "open or map failed" := by
  simp [process_file, h, Nat.not_lt.mpr hge, hm]

/-- `process_file` on the full path: stat, map, hash, optional GPU step. -/
theorem process_file_eval (fs : FS) (hash : List Nat → String) (p : String)
    (min_bytes size : Nat) (use_gpu : Bool) (gpu_ctx : Option GpuContext)
    (data : List Nat) (h : fs.stat p = some size) (hge : min_bytes ≤ size)
    (hm : fs.readMap p = some data) :
    process_file fs hash p min_bytes use_gpu gpu_ctx =
      Except.ok { path := p, size := size, blake3_hex := some (hash data),
                  xor64_gpu :=
                    (if use_gpu then
                      match gpu_ctx with
                      | some c =>
                          match c.xor64_for_file data with
                          | Except.ok v => some v
                          | Except.error _ => none
                      | none => none
                    else none), elapsed_ms := 0 } := by
  simp [process_file, h, Nat.not_lt.mpr hge, hm]

/-- A successful `process_file` reports the path it was given. -/
theorem process_file_ok_path (fs : FS) (hash : List Nat → String) (p : String)
    (min_bytes : Nat) (use_gpu : Bool) (gpu_ctx : Option GpuContext)
    (r : FileReport)
    (h : process_file fs hash p min_bytes use_gpu gpu_ctx = Except.ok r) :
    r.path = p := by
  cases hstat : fs.stat p with
  | none =>
      rw [process_file_stat_none fs hash p min_bytes use_gpu gpu_ctx hstat] at h
      exact absurd h (by simp)
  | some size =>
      by_cases hlt : size < min_bytes
      · rw [process_file_skip fs hash p min_bytes size use_gpu gpu_ctx hstat hlt] at h
        simp only [Except.ok.injEq] at h
        rw [← h]
      · cases hmap : fs.readMap p with
        | none =>
            rw [process_file_map_none fs hash p min_bytes size use_gpu gpu_ctx
              hstat (Nat.not_lt.mp hlt) hmap] at h
            exact absurd h (by simp)
        | some data =>
            rw [process_file_eval fs hash p min_bytes size use_gpu gpu_ctx data
              hstat (Nat.not_lt.mp hlt) hmap] at h
            simp only [Except.ok.injEq] at h
            rw [← h]

/-- The report a worker sends for path `p` carries path `p`, in both the
success and the fallback branch. -/
theorem runWorker_path (fs : FS) (hash : List Nat → String) (min_bytes : Nat)
    (use_gpu : Bool) (gpu_ctx : Option GpuContext) (p : String) :
    ((runWorker fs hash min_bytes use_gpu gpu_ctx p).1).path = p := by
  unfold runWorker
  cases hpf : process_file fs hash p min_bytes use_gpu gpu_ctx with
  | ok r => simpa using process_file_ok_path fs hash p min_bytes use_gpu gpu_ctx r hpf
  | error e => rfl

/-- The aggregator's report collection is exactly the received sequence. -/
theorem aggregate_reports_eq (received : List FileReport) :
    (aggregate received).reports = received := by
  have gen : ∀ (l : List FileReport) (s : AggState),
      (l.foldl aggStep s).reports = s.reports ++ l := by
    intro l
    induction l with
    | nil => intro s; simp
    | cons r t ih =>
        intro s
        rw [List.foldl_cons, ih]
        show (aggStep s r).reports ++ t = s.reports ++ r :: t
        simp [aggStep, List.append_assoc]
  simpa [aggregate, aggInit] using gen received aggInit

/-! ## C1: one report per discovered path -/

/-- C1: for every run, the aggregator receives exactly as many reports as
there are discovered paths, and each path accounts for exactly one of them —
no path yields zero or two reports, whatever order the channel delivers. -/
theorem reports_one_per_path (fs : FS) (hash : List Nat → String)
    (min_bytes : Nat) (use_gpu : Bool) (gpu_ctx : Option GpuContext)
    (files : List String) (arrival : List FileReport)
    (hperm : arrival.Perm (sentReports fs hash min_bytes use_gpu gpu_ctx files)) :
    (aggregate arrival).reports.length = files.length ∧
    ∀ p : String,
      (aggregate arrival).reports.countP (fun r => r.path == p) = files.count p := by
  rw [aggregate_reports_eq]
  constructor
  · rw [hperm.length_eq]
    exact List.length_map files _
  · intro p
    rw [hperm.countP_eq]
    unfold sentReports
    rw [List.countP_map]
    unfold List.count
    apply List.countP_congr
    intro q hq
    simp [Function.comp, runWorker_path]

/-- Witness for C1: a two-file run whose reports arrive in reverse order. -/
theorem reports_one_per_path_witness :
    (aggregate ((sentReports fs0 hash0 0 false none ["b", "a"]).reverse)).reports.length =
      (["b", "a"] : List String).length ∧
    ∀ p : String,
      (aggregate ((sentReports fs0 hash0 0 false none ["b", "a"]).reverse)).reports.countP
          (fun r => r.path == p) =
        (["b", "a"] : List String).count p :=
  reports_one_per_path fs0 hash0 0 false none ["b", "a"] _ (List.reverse_perm _)

/-! ## C2: per-file failure yields a fallback report, rest unaffected -/

/-- C2: when `process_file` fails for a path, the worker still sends a report
for that path — original path, re-statted best-effort size (`0` if the stat
fails), no fingerprint, no GPU value — together with a stderr warning naming
the path and the error; every worker's output depends only on the file system
at its own path, and the run still produces one report per discovered path. -/
theorem error_fallback_report (fs : FS) (hash : List Nat → String)
    (min_bytes : Nat) (use_gpu : Bool) (gpu_ctx : Option GpuContext)
    (p e : String)
    (hfail : process_file fs hash p min_bytes use_gpu gpu_ctx = Except.error e) :
    runWorker fs hash min_bytes use_gpu gpu_ctx p =
      ({ path := p, size := (fs.stat p).getD 0, blake3_hex := none,
         xor64_gpu := none, elapsed_ms := 0 }, some (warnMsg p e)) ∧
    (∀ (fs' : FS) (q : String),
      fs'.stat q = fs.stat q → fs'.readMap q = fs.readMap q →
      runWorker fs' hash min_bytes use_gpu gpu_ctx q =
        runWorker fs hash min_bytes use_gpu gpu_ctx q) ∧
    (∀ files : List String,
      (sentReports fs hash min_bytes use_gpu gpu_ctx files).length = files.length) := by
  refine ⟨?_, ?_, ?_⟩
  · unfold runWorker
    rw [hfail]
  · intro fs' q hstat hmap
    unfold runWorker process_file
    rw [hstat, hmap]
  · intro files
    exact List.length_map files _

/-- Witness for C2: the path `"bad"` fails to stat in `fsBad`. -/
theorem error_fallback_report_witness :
    runWorker fsBad hash0 0 false none "bad" =
      ({ path := "bad", size := (fsBad.stat "bad").getD 0, blake3_hex := none,
         xor64_gpu := none, elapsed_ms := 0 },
       some (warnMsg "bad" "stat failed")) ∧
    (∀ (fs' : FS) (q : String),
      fs'.stat q = fsBad.stat q → fs'.readMap q = fsBad.readMap q →
      runWorker fs' hash0 0 false none q = runWorker fsBad hash0 0 false none q) ∧
    (∀ files : List String,
      (sentReports fsBad hash0 0 false none files).length = files.length) :=
  error_fallback_report fsBad hash0 0 false none "bad" "stat failed" rfl

/-! ## C3: files below `min_bytes` are skipped without I/O -/

/-- C3: a file whose size is below `min_bytes` yields a report with its path
and size but no fingerprint and no GPU value, and the outcome is independent
of the file's content and of the hash function — no open, no mapping and no
hashing take place. -/
theorem small_file_skipped (fs : FS) (hash : List Nat → String) (p : String)
    (min_bytes size : Nat) (use_gpu : Bool) (gpu_ctx : Option GpuContext)
    (hstat : fs.stat p = some size) (hlt : size < min_bytes) :
    process_file fs hash p min_bytes use_gpu gpu_ctx =
      Except.ok { path := p, size := size, blake3_hex := none,
                  xor64_gpu := none, elapsed_ms := 0 } ∧
    (∀ (fs' : FS) (hash' : List Nat → String), fs'.stat p = fs.stat p →
      process_file fs' hash' p min_bytes use_gpu gpu_ctx =
        process_file fs hash p min_bytes use_gpu gpu_ctx) := by
  constructor
  · exact process_file_skip fs hash p min_bytes size use_gpu gpu_ctx hstat hlt
  · intro fs' hash' hstat'
    rw [process_file_skip fs' hash' p min_bytes size use_gpu gpu_ctx
      (hstat'.trans hstat) hlt,
      process_file_skip fs hash p min_bytes size use_gpu gpu_ctx hstat hlt]

/-- Witness for C3: a 5-byte file against a 100-byte threshold. -/
theorem small_file_skipped_witness :
    process_file fs0 hash0 "a" 100 false none =
      Except.ok { path := "a", size := 5, blake3_hex := none,
                  xor64_gpu := none, elapsed_ms := 0 } ∧
    (∀ (fs' : FS) (hash' : List Nat → String), fs'.stat "a" = fs0.stat "a" →
      process_file fs' hash' "a" 100 false none =
        process_file fs0 hash0 "a" 100 false none) :=
  small_file_skipped fs0 hash0 "a" 100 5 false none rfl (by decide)

/-! ## C10: the skip is strict — a file of exactly `min_bytes` is hashed -/

/-- C10: the lightweight-skip branch is taken only for files strictly smaller
than `min_bytes`: whenever `min_bytes ≤ size` (in particular at the boundary
`size = min_bytes`, and for every file under the default `min_bytes = 0`),
the file is opened, mapped and fingerprinted. -/
theorem min_bytes_boundary_not_skipped (fs : FS) (hash : List Nat → String)
    (p : String) (min_bytes size : Nat) (use_gpu : Bool)
    (gpu_ctx : Option GpuContext) (data : List Nat)
    (hstat : fs.stat p = some size) (hmap : fs.readMap p = some data)
    (hle : min_bytes ≤ size) :
    ∃ r : FileReport,
      process_file fs hash p min_bytes use_gpu gpu_ctx = Except.ok r ∧
      r.path = p ∧ r.size = size ∧ r.blake3_hex = some (hash data) :=
  ⟨_, process_file_eval fs hash p min_bytes size use_gpu gpu_ctx data
      hstat hle hmap, rfl, rfl, rfl⟩

/-- Witness for C10 at the exact boundary: a 5-byte file with
`min_bytes = 5` is fingerprinted. -/
theorem min_bytes_boundary_not_skipped_witness :
    ∃ r : FileReport,
      process_file fs0 hash0 "a" 5 false none = Except.ok r ∧
      r.path = "a" ∧ r.size = 5 ∧ r.blake3_hex = some (hash0 [1]) :=
  min_bytes_boundary_not_skipped fs0 hash0 "a" 5 5 false none [1] rfl rfl
    (Nat.le_refl 5)

/-! ## C7: a GPU failure is swallowed, the report keeps hash and size -/

/-- C7: when a file reaches the GPU step (GPU requested, context available)
and the GPU invocation fails, `process_file` still succeeds with the
already-computed fingerprint and size and records the GPU value as absent —
the failure never turns the file into an error case. -/
theorem gpu_failure_swallowed (fs : FS) (hash : List Nat → String)
    (p e : String) (min_bytes size : Nat) (ctx : GpuContext) (data : List Nat)
    (hstat : fs.stat p = some size) (hle : min_bytes ≤ size)
    (hmap : fs.readMap p = some data)
    (hfail : ctx.xor64_for_file data = Except.error e) :
    process_file fs hash p min_bytes true (some ctx) =
      Except.ok { path := p, size := size, blake3_hex := some (hash data),
                  xor64_gpu := none, elapsed_ms := 0 } := by
  rw [process_file_eval fs hash p min_bytes size true (some ctx) data
    hstat hle hmap]
  simp [hfail]

/-- Witness for C7: `ctxFail` always fails, the report keeps the hash. -/
theorem gpu_failure_swallowed_witness :
    process_file fs0 hash0 "a" 0 true (some ctxFail) =
      Except.ok { path := "a", size := 5, blake3_hex := some (hash0 [1]),
                  xor64_gpu := none, elapsed_ms := 0 } :=
  gpu_failure_swallowed fs0 hash0 "a" "gpu invocation failed" 0 5 ctxFail [1]
    rfl (Nat.zero_le 5) rfl rfl

/-! ## C8: `warm_only` is observationally a no-op -/

/-- C8: on identical inputs, the run's reports and warnings are identical
whether `warm_only` is set or not — the flag gates no step of per-file
processing. -/
theorem warm_only_no_op (args : Args) (fs : FS) (hash : List Nat → String)
    (entries : List WalkEntry) (gpu_ctx : Option GpuContext) (b₁ b₂ : Bool) :
    runPipeline { args with warm_only := b₁ } fs hash entries gpu_ctx =
      runPipeline { args with warm_only := b₂ } fs hash entries gpu_ctx := rfl

/-! ## C6: the scan is sorted, deterministic, and skips bad entries -/

/-- The scan output is lexicographically sorted. -/
theorem scanFiles_sorted (entries : List WalkEntry) :
    (scanFiles entries).Sorted (· ≤ ·) := by
  have h := @List.sorted_mergeSort String
    (fun a b : String => decide (a ≤ b))
    (fun a b c hab hbc =>
      decide_eq_true (le_trans (of_decide_eq_true hab) (of_decide_eq_true hbc)))
    (fun a b => by
      rcases le_total a b with hle | hle
      · simp [hle]
      · simp [hle])
    (entries.filterMap fun e =>
      match e with
      | WalkEntry.found p ft => if ft then some p else none
      | WalkEntry.ioError => none)
  unfold scanFiles
  exact h.imp fun hab => of_decide_eq_true hab

/-- Every scanned path comes from an `Ok` regular-file walk entry. -/
theorem scanFiles_mem (entries : List WalkEntry) (p : String)
    (hp : p ∈ scanFiles entries) : WalkEntry.found p true ∈ entries := by
  unfold scanFiles at hp
  rw [List.mem_mergeSort] at hp
  rcases List.mem_filterMap.mp hp with ⟨e, he, hfe⟩
  cases e with
  | found q ft =>
      cases ft with
      | true =>
          simp only [if_pos, Option.some.injEq] at hfe
          rw [← hfe]
          exact he
      | false => simp at hfe
  | ioError => simp at hfe

/-- C6: the scan yields a finite, lexicographically sorted list of paths of
regular-file entries; error (unreadable/transient) entries are silently
dropped rather than aborting; and the output is deterministic — it does not
depend on the order in which the walk enumerates the entries. -/
theorem scan_deterministic_sorted (entries : List WalkEntry) :
    (scanFiles entries).Sorted (· ≤ ·) ∧
    (∀ p ∈ scanFiles entries, WalkEntry.found p true ∈ entries) ∧
    scanFiles (WalkEntry.ioError :: entries) = scanFiles entries ∧
    (∀ entries' : List WalkEntry, entries.Perm entries' →
      scanFiles entries = scanFiles entries') := by
  refine ⟨scanFiles_sorted entries, fun p hp => scanFiles_mem entries p hp, rfl, ?_⟩
  intro entries' hperm
  refine List.eq_of_perm_of_sorted ?_ (scanFiles_sorted entries)
    (scanFiles_sorted entries')
  unfold scanFiles
  exact (List.mergeSort_perm _ _).trans
    ((hperm.filterMap _).trans (List.mergeSort_perm _ _).symm)

/-- Witness for C6: two enumeration orders of the same entries. -/
theorem scan_deterministic_sorted_witness :
    scanFiles [WalkEntry.found "b" true, WalkEntry.ioError,
        WalkEntry.found "a" true, WalkEntry.found "c" false] =
      scanFiles [WalkEntry.found "a" true, WalkEntry.found "c" false,
        WalkEntry.found "b" true, WalkEntry.ioError] :=
  (scan_deterministic_sorted _).2.2.2 _ (by decide)

/-! ## C5: the final top-10 list (corrected: descending, but not strictly) -/

/-- The strictness the claim asserts of the printed top-10 list. -/
def StrictlyDescBySize (l : List FileReport) : Prop :=
  l.Chain' (fun a b => b.size < a.size)

/-- Counterexample to C5 as stated: two discovered files of equal size (both
5 bytes) tie, so the printed top-10 list is not *strictly* descending. -/
theorem top10_strictly_desc_counterexample :
    ¬ StrictlyDescBySize
      (finalTop10 (aggregate (sentReports fs0 hash0 0 false none ["a", "b"]))) := by
  intro hchain
  have hsent : sentReports fs0 hash0 0 false none ["a", "b"] =
      [{ path := "a", size := 5, blake3_hex := some "h", xor64_gpu := none,
         elapsed_ms := 0 },
       { path := "b", size := 5, blake3_hex := some "h", xor64_gpu := none,
         elapsed_ms := 0 }] := rfl
  have hsize : ∀ r ∈ sortReportsDesc (sentReports fs0 hash0 0 false none ["a", "b"]),
      r.size = 5 := by
    intro r hr
    have hr' : r ∈ sentReports fs0 hash0 0 false none ["a", "b"] :=
      (List.mergeSort_perm _ _).mem_iff.mp hr
    rw [hsent] at hr'
    rcases List.mem_cons.mp hr' with hra | hrb
    · rw [hra]
    · rcases List.mem_cons.mp hrb with hrb' | hnil
      · rw [hrb']
      · exact absurd hnil (List.not_mem_nil r)
  have hlen : (sortReportsDesc (sentReports fs0 hash0 0 false none ["a", "b"])).length = 2 := by
    unfold sortReportsDesc
    rw [List.length_mergeSort, hsent]
    rfl
  rcases List.length_eq_two.mp hlen with ⟨x, y, hxy⟩
  have hx : x.size = 5 := hsize x (by rw [hxy]; exact List.mem_cons_self x [y])
  have hy : y.size = 5 := hsize y (by
    rw [hxy]
    exact List.mem_cons_of_mem x (List.mem_cons_self y []))
  unfold StrictlyDescBySize finalTop10 at hchain
  rw [aggregate_reports_eq, hxy] at hchain
  have htake : ([x, y].take 10) = [x, y] := rfl
  rw [htake] at hchain
  have hlt : y.size < x.size := (List.chain'_cons.mp hchain).1
  rw [hx, hy] at hlt
  exact absurd hlt (lt_irrefl 5)

/-- C5 amended: the printed top-10 list is sorted descending by size
(non-strictly — equal sizes may tie), and every report in it belongs to a
discovered path. -/
theorem top10_sorted_desc_subset (fs : FS) (hash : List Nat → String)
    (min_bytes : Nat) (use_gpu : Bool) (gpu_ctx : Option GpuContext)
    (files : List String) (arrival : List FileReport)
    (hperm : arrival.Perm (sentReports fs hash min_bytes use_gpu gpu_ctx files)) :
    (finalTop10 (aggregate arrival)).Chain' (fun a b => b.size ≤ a.size) ∧
    ∀ r ∈ finalTop10 (aggregate arrival), r.path ∈ files := by
  unfold finalTop10
  rw [aggregate_reports_eq]
  constructor
  · have hsorted := @List.sorted_mergeSort FileReport
      (fun a b : FileReport => decide (b.size ≤ a.size))
      (fun a b c hab hbc =>
        decide_eq_true (le_trans (of_decide_eq_true hbc) (of_decide_eq_true hab)))
      (fun a b => by
        rcases le_total b.size a.size with hle | hle
        · simp [hle]
        · simp [hle])
      arrival
    have hpair : (sortReportsDesc arrival).Pairwise (fun a b => b.size ≤ a.size) :=
      hsorted.imp fun hab => of_decide_eq_true hab
    exact ((hpair.sublist (List.take_sublist 10 _))).chain'
  · intro r hr
    have hr1 : r ∈ sortReportsDesc arrival := List.take_subset 10 _ hr
    have hr2 : r ∈ arrival := (List.mergeSort_perm _ _).mem_iff.mp hr1
    have hr3 : r ∈ sentReports fs hash min_bytes use_gpu gpu_ctx files :=
      hperm.mem_iff.mp hr2
    rcases List.mem_map.mp hr3 with ⟨p, hp, hrp⟩
    have : r.path = p := by
      rw [← hrp]
      exact runWorker_path fs hash min_bytes use_gpu gpu_ctx p
    rw [this]
    exact hp

/-- Witness for C5 (amended) on a concrete two-file run with reversed
arrival order. -/
theorem top10_sorted_desc_subset_witness :
    (finalTop10 (aggregate
        ((sentReports fs0 hash0 0 false none ["a", "b"]).reverse))).Chain'
      (fun a b => b.size ≤ a.size) ∧
    ∀ r ∈ finalTop10 (aggregate
        ((sentReports fs0 hash0 0 false none ["a", "b"]).reverse)),
      r.path ∈ (["a", "b"] : List String) :=
  top10_sorted_desc_subset fs0 hash0 0 false none ["a", "b"] _
    (List.reverse_perm _)

/-! ## C9: the aggregator's counters (corrected: they are wrapping `u64`s) -/

/-- The report used by the C9 counterexample. -/
def rep0 : FileReport :=
  { path := "x", size := 0, blake3_hex := none, xor64_gpu := none,
    elapsed_ms := 0 }

/-- The counters after any received sequence, with the wrapping `fetch_add`
semantics of `AtomicU64` made explicit. -/
theorem aggregate_counters_mod (received : List FileReport) :
    (aggregate received).total_processed = received.length % U64MOD ∧
    (aggregate received).total_bytes_processed =
      (received.map (fun r => r.size % U64MOD)).sum % U64MOD := by
  have hM : 0 < U64MOD := by
    unfold U64MOD
    exact Nat.pos_pow_of_pos 64 (by decide)
  have gen : ∀ (l : List FileReport) (s : AggState),
      s.total_processed < U64MOD → s.total_bytes_processed < U64MOD →
      (l.foldl aggStep s).total_processed =
          (s.total_processed + l.length) % U64MOD ∧
        (l.foldl aggStep s).total_bytes_processed =
          (s.total_bytes_processed + (l.map (fun r => r.size % U64MOD)).sum) %
            U64MOD := by
    intro l
    induction l with
    | nil =>
        intro s h1 h2
        constructor
        · simp [Nat.mod_eq_of_lt h1]
        · simp [Nat.mod_eq_of_lt h2]
    | cons r t ih =>
        intro s h1 h2
        rw [List.foldl_cons]
        have hs1 : (aggStep s r).total_processed < U64MOD :=
          Nat.mod_lt _ hM
        have hs2 : (aggStep s r).total_bytes_processed < U64MOD :=
          Nat.mod_lt _ hM
        rcases ih (aggStep s r) hs1 hs2 with ⟨ihp, ihb⟩
        constructor
        · rw [ihp]
          show ((s.total_processed + 1) % U64MOD + t.length) % U64MOD = _
          rw [Nat.mod_add_mod]
          simp [List.length_cons, Nat.add_assoc, Nat.add_comm 1 t.length]
        · rw [ihb]
          show ((s.total_bytes_processed + r.size % U64MOD) % U64MOD +
              (t.map (fun x => x.size % U64MOD)).sum) % U64MOD = _
          rw [Nat.mod_add_mod]
          simp [List.map_cons, List.sum_cons, Nat.add_assoc]
  have h := gen received aggInit (by simpa [aggInit] using hM)
    (by simpa [aggInit] using hM)
  simpa [aggregate, aggInit] using h

/-- Counterexample to C9 as stated: after `2 ^ 64` received reports the
files-processed `u64` counter has wrapped to `0`, not `k`. -/
theorem aggregator_counter_counterexample :
    (aggregate (List.replicate U64MOD rep0)).total_processed ≠
      (List.replicate U64MOD rep0).length := by
  rw [(aggregate_counters_mod _).1, List.length_replicate, Nat.mod_self]
  intro h
  have : 0 < U64MOD := by
    unfold U64MOD
    exact Nat.pos_pow_of_pos 64 (by decide)
  omega

/-- C9 amended: the counters hold `k` and the byte total modulo `2 ^ 64`;
whenever the report count and the byte total are below `2 ^ 64` (with every
size a `u64` value) they equal `k` and the exact sum, and a single `aggStep`
never decreases a counter unless its `fetch_add` wraps.  (In the model only
the aggregator's `aggStep` ever writes them.) -/
theorem aggregator_counter_invariant (received : List FileReport)
    (hlen : received.length < U64MOD)
    (hsum : (received.map (fun r => r.size)).sum < U64MOD)
    (hsz : ∀ r ∈ received, r.size < U64MOD) :
    (aggregate received).total_processed = received.length ∧
    (aggregate received).total_bytes_processed =
      (received.map (fun r => r.size)).sum ∧
    (∀ (s : AggState) (rep : FileReport),
      s.total_processed + 1 < U64MOD →
      s.total_processed < (aggStep s rep).total_processed) ∧
    (∀ (s : AggState) (rep : FileReport),
      s.total_bytes_processed + rep.size % U64MOD < U64MOD →
      s.total_bytes_processed ≤ (aggStep s rep).total_bytes_processed) := by
  rcases aggregate_counters_mod received with ⟨hp, hb⟩
  have hmapeq : received.map (fun r => r.size % U64MOD) =
      received.map (fun r => r.size) := by
    apply List.map_congr_left
    intro r hr
    exact Nat.mod_eq_of_lt (hsz r hr)
  refine ⟨?_, ?_, ?_, ?_⟩
  · rw [hp]
    exact Nat.mod_eq_of_lt hlen
  · rw [hb, hmapeq]
    exact Nat.mod_eq_of_lt hsum
  · intro s rep hlt
    show s.total_processed < (s.total_processed + 1) % U64MOD
    rw [Nat.mod_eq_of_lt hlt]
    exact Nat.lt_succ_self _
  · intro s rep hlt
    show s.total_bytes_processed ≤
      (s.total_bytes_processed + rep.size % U64MOD) % U64MOD
    rw [Nat.mod_eq_of_lt hlt]
    exact Nat.le_add_right _ _

/-- The report used by the C9 witness. -/
def rep1 : FileReport :=
  { path := "a", size := 5, blake3_hex := none, xor64_gpu := none,
    elapsed_ms := 0 }

/-- Witness for C9 (amended) on a concrete single-report sequence. -/
theorem aggregator_counter_invariant_witness :
    (aggregate [rep1]).total_processed = [rep1].length ∧
    (aggregate [rep1]).total_bytes_processed =
      ([rep1].map (fun r => r.size)).sum ∧
    (∀ (s : AggState) (rep : FileReport),
      s.total_processed + 1 < U64MOD →
      s.total_processed < (aggStep s rep).total_processed) ∧
    (∀ (s : AggState) (rep : FileReport),
      s.total_bytes_processed + rep.size % U64MOD < U64MOD →
      s.total_bytes_processed ≤ (aggStep s rep).total_bytes_processed) :=
  aggregator_counter_invariant [rep1] (by decide) (by decide) (by decide)

end RustOptimizer
